import Mathlib

/-!
Verification of the Action Lifecycle Orchestrator backend.

This file gives a shallow embedding, in Lean 4, of the parts of the
backend that the design document makes claims about:

  * the scheduling-window normalization and duration-string synthesis of
    the trigger route (getPatchWindowMs, msToXSDuration, localUtcOffsetMs
    and the window-validation stage of handleStageTrigger);
  * the targeting-expression templates of triggerBaselineAction;
  * the self-healing group lookup of triggerBaselineAction (AssetOwnership
    ghost detection);
  * the post-patch watcher (shouldSend, markSent, the tick loop,
    loadCacheFromDb, cleanupOldActions).

JavaScript numbers are modelled as Int (all arithmetic in the claims is
integral), JS strings as String, absent or undefined fields as Option,
and the JSON serialization of action metadata as the identity round trip.
Each definition carries a comment naming the source function it embeds.
-/

namespace PatchOrch

/-! ## Decimal digit rendering and parsing

The JS code renders numeric duration components with template literals,
which print nonnegative integers in decimal. natChars is that decimal
rendering (fuel-based so that it reduces by evaluation); digitsVal and
takeDigits are the building blocks of the spec-modelled duration parser.
-/

/-- Decimal digit character for a digit value below ten. -/
def digitChar (d : Nat) : Char :=
  match d with
  | 0 => '0' | 1 => '1' | 2 => '2' | 3 => '3' | 4 => '4'
  | 5 => '5' | 6 => '6' | 7 => '7' | 8 => '8' | _ => '9'

/-- Numeric value of a digit character. -/
def charVal (c : Char) : Nat := c.toNat - 48

/-- Is this character a decimal digit. -/
def isDig (c : Char) : Bool := 48 ≤ c.toNat && c.toNat ≤ 57

/-- Fuel-based decimal rendering helper. -/
def natCharsAux (fuel : Nat) (n : Nat) : List Char :=
  match fuel with
  | 0 => []
  | fuel + 1 => if n = 0 then [] else natCharsAux fuel (n / 10) ++ [digitChar (n % 10)]

/-- Decimal rendering of a natural number; empty for zero (the encoder
only renders nonzero components). -/
def natChars (n : Nat) : List Char := natCharsAux n n

/-- Accumulating decimal value of a digit-character list, most significant
digit first. -/
def digitsVal (acc : Nat) : List Char → Nat
  | [] => acc
  | c :: cs => digitsVal (acc * 10 + charVal c) cs

/-- Split a character list into its maximal leading digit run and the
rest. -/
def takeDigits : List Char → List Char × List Char
  | [] => ([], [])
  | c :: cs =>
      if isDig c then (c :: (takeDigits cs).1, (takeDigits cs).2)
      else ([], c :: cs)

/-- Parse a nonempty leading digit run as a natural number. -/
def parseNum (l : List Char) : Option (Nat × List Char) :=
  let p := takeDigits l
  if p.1 = [] then none else some (digitsVal 0 p.1, p.2)

/-! ## Duration synthesis: msToXSDuration (src/routes/pilot.js)

The source computes totalSeconds = floor(|ms| / 1000), splits it into
days / hours / minutes / seconds, renders the nonzero components, writes
T0S when there are no components at all, and then glues an optional minus
sign and the leading P. msToXSDuration 0 mirrors the early return for a
zero (or non-finite, which Int cannot represent) input.
-/

/-- The joined timeParts list of msToXSDuration: nonzero hour, minute and
second components, each a decimal numeral followed by its unit letter. -/
def timeChars (h m s : Nat) : List Char :=
  (if h ≠ 0 then natChars h ++ ['H'] else []) ++
  (if m ≠ 0 then natChars m ++ ['M'] else []) ++
  (if s ≠ 0 then natChars s ++ ['S'] else [])

/-- Body of the rendered duration (everything after the P) for a total
second count. Mirrors the component assembly of msToXSDuration: an nD
part when the day count is nonzero, a T part when some time component is
nonzero, and the literal T0S when there is nothing at all. -/
def secsChars (ts : Nat) : List Char :=
  let days := ts / 86400
  let hours := ts % 86400 / 3600
  let minutes := ts % 86400 % 3600 / 60
  let seconds := ts % 86400 % 3600 % 60
  let tp := timeChars hours minutes seconds
  if tp ≠ [] then (if days ≠ 0 then natChars days ++ ['D'] else []) ++ 'T' :: tp
  else if days = 0 then ['T', '0', 'S']
  else natChars days ++ ['D']

/-- msToXSDuration from src/routes/pilot.js, on integral milliseconds. -/
def msToXSDuration (ms : Int) : String :=
  if ms = 0 then "PT0S"
  else
    let neg := ms < 0
    let ts := ms.natAbs / 1000
    ⟨(if neg then ['-'] else []) ++ 'P' :: secsChars ts⟩

/-! ## Spec-modelled duration parser

Modelled from the spec: the source has no decoder for the duration
strings it emits; section 8 of the design document nevertheless states an
idempotence-under-re-encoding property, phrased in terms of decoding the
produced duration string back into a millisecond duration. The parser
below implements exactly the grammar the document gives: optional leading
minus, P, an optional whole-days component nD, then T followed by
hour / minute / second components.
-/

/-- Consume an optional leading minus sign. -/
def stripMinus : List Char → Bool × List Char
  | '-' :: l => (true, l)
  | l => (false, l)

/-- Try to consume one duration component: a digit run followed by the
given unit character. Leaves the input unchanged when it does not match. -/
def tryComp (u : Char) (l : List Char) : Option Nat × List Char :=
  match parseNum l with
  | some (n, c :: rest) => if c = u then (some n, rest) else (none, l)
  | _ => (none, l)

/-- Parse the time components after the T: optional nH, then optional nM,
then optional nS, at least one present, end of input after. Returns the
total in seconds. -/
def parseTimeComps (l : List Char) : Option Nat :=
  let ph := tryComp 'H' l
  let pm := tryComp 'M' ph.2
  let ps := tryComp 'S' pm.2
  if ps.2 = [] ∧ (ph.1.isSome ∨ pm.1.isSome ∨ ps.1.isSome) then
    some ((ph.1.getD 0) * 3600 + (pm.1.getD 0) * 60 + ps.1.getD 0)
  else none

/-- Parse the duration body after the P: an optional whole-days component
then an optional T-part, at least one of the two present. Returns the
total in seconds. -/
def parseAfterP (l : List Char) : Option Nat :=
  let pd := tryComp 'D' l
  match pd.2 with
  | [] => if pd.1.isSome then some ((pd.1.getD 0) * 86400) else none
  | 'T' :: rest => (parseTimeComps rest).map (fun s => (pd.1.getD 0) * 86400 + s)
  | _ => none

/-- Decode a duration string into signed milliseconds, per the grammar in
the design document. -/
def xsDurationToMs (s : String) : Option Int :=
  let p := stripMinus s.data
  match p.2 with
  | 'P' :: rest =>
      (parseAfterP rest).map (fun secs => (if p.1 then -1 else 1) * (secs : Int) * 1000)
  | _ => none

/-! ## Digit lemmas -/

theorem natCharsAux_eq (f1 : Nat) : ∀ f2 n : Nat, n ≤ f1 → n ≤ f2 →
    natCharsAux f1 n = natCharsAux f2 n := by
  induction f1 with
  | zero =>
      intro f2 n h1 _
      have hn : n = 0 := Nat.le_zero.1 h1
      subst hn
      cases f2 <;> simp [natCharsAux]
  | succ f ih =>
      intro f2 n h1 h2
      by_cases hn : n = 0
      · subst hn; cases f2 <;> simp [natCharsAux]
      · have hpos : 0 < n := Nat.pos_of_ne_zero hn
        cases f2 with
        | zero => omega
        | succ g =>
            have hdiv : n / 10 < n := Nat.div_lt_self hpos (by norm_num)
            simp only [natCharsAux, hn, if_false]
            rw [ih g (n / 10) (by omega) (by omega)]

theorem natChars_zero : natChars 0 = [] := rfl

theorem natChars_eq (n : Nat) (hn : n ≠ 0) :
    natChars n = natChars (n / 10) ++ [digitChar (n % 10)] := by
  have hpos : 0 < n := Nat.pos_of_ne_zero hn
  have hdiv : n / 10 < n := Nat.div_lt_self hpos (by norm_num)
  cases n with
  | zero => exact absurd rfl hn
  | succ m =>
      show natCharsAux (m + 1) (m + 1) = _
      simp only [natCharsAux, Nat.succ_ne_zero, if_false]
      rw [natCharsAux_eq m ((m + 1) / 10) ((m + 1) / 10) (by omega) (le_refl _)]
      rfl

theorem isDig_digitChar (d : Nat) : isDig (digitChar d) = true := by
  unfold digitChar
  split <;> rfl

theorem charVal_digitChar (d : Nat) (h : d < 10) : charVal (digitChar d) = d := by
  interval_cases d <;> rfl

theorem natChars_digits (n : Nat) : ∀ c ∈ natChars n, isDig c = true := by
  induction n using Nat.strong_induction_on with
  | _ n ih =>
      by_cases hn : n = 0
      · subst hn; simp [natChars_zero]
      · rw [natChars_eq n hn]
        intro c hc
        rcases List.mem_append.1 hc with h | h
        · exact ih (n / 10) (Nat.div_lt_self (Nat.pos_of_ne_zero hn) (by norm_num)) c h
        · rw [List.mem_singleton.1 h]; exact isDig_digitChar _

theorem natChars_ne_nil (n : Nat) (hn : n ≠ 0) : natChars n ≠ [] := by
  rw [natChars_eq n hn]; simp

theorem digitsVal_append (xs ys : List Char) (acc : Nat) :
    digitsVal acc (xs ++ ys) = digitsVal (digitsVal acc xs) ys := by
  induction xs generalizing acc with
  | nil => rfl
  | cons c cs ih => exact ih (acc * 10 + charVal c)

theorem digitsVal_natChars (n : Nat) : digitsVal 0 (natChars n) = n := by
  induction n using Nat.strong_induction_on with
  | _ n ih =>
      by_cases hn : n = 0
      · subst hn; rfl
      · rw [natChars_eq n hn, digitsVal_append,
          ih (n / 10) (Nat.div_lt_self (Nat.pos_of_ne_zero hn) (by norm_num))]
        show (n / 10) * 10 + charVal (digitChar (n % 10)) = n
        have h10 : n % 10 < 10 := Nat.mod_lt n (by norm_num)
        rw [charVal_digitChar (n % 10) h10]
        omega

/-! ## Parser lemmas -/

theorem takeDigits_digits_append (xs l : List Char) (h : ∀ c ∈ xs, isDig c = true) :
    takeDigits (xs ++ l) = (xs ++ (takeDigits l).1, (takeDigits l).2) := by
  induction xs with
  | nil => simp
  | cons c cs ih =>
      have hc : isDig c = true := h c (List.mem_cons_self c cs)
      simp only [List.cons_append, takeDigits, hc, if_true, List.append_eq]
      rw [ih (fun x hx => h x (List.mem_cons_of_mem c hx))]

theorem takeDigits_nondigit (c : Char) (l : List Char) (h : isDig c = false) :
    takeDigits (c :: l) = ([], c :: l) := by
  simp [takeDigits, h]

theorem parseNum_natChars (n : Nat) (hn : n ≠ 0) (c : Char) (hc : isDig c = false)
    (rest : List Char) :
    parseNum (natChars n ++ c :: rest) = some (n, c :: rest) := by
  unfold parseNum
  rw [takeDigits_digits_append _ _ (natChars_digits n), takeDigits_nondigit c rest hc]
  simp [natChars_ne_nil n hn, digitsVal_natChars]

theorem parseNum_nondigit (c : Char) (l : List Char) (h : isDig c = false) :
    parseNum (c :: l) = none := by
  simp [parseNum, takeDigits_nondigit c l h]

theorem tryComp_match (u : Char) (n : Nat) (hn : n ≠ 0) (hu : isDig u = false)
    (rest : List Char) :
    tryComp u (natChars n ++ u :: rest) = (some n, rest) := by
  simp [tryComp, parseNum_natChars n hn u hu rest]

theorem tryComp_skip (u u' : Char) (hne : u' ≠ u) (n : Nat) (hn : n ≠ 0)
    (hu' : isDig u' = false) (rest : List Char) :
    tryComp u (natChars n ++ u' :: rest) = (none, natChars n ++ u' :: rest) := by
  simp [tryComp, parseNum_natChars n hn u' hu' rest, hne]

theorem tryComp_nondigit (u c : Char) (l : List Char) (h : isDig c = false) :
    tryComp u (c :: l) = (none, c :: l) := by
  simp [tryComp, parseNum_nondigit c l h]

theorem tryComp_nil (u : Char) : tryComp u [] = (none, []) := rfl

theorem parseTimeComps_built (h m s : Nat) (hne : ¬(h = 0 ∧ m = 0 ∧ s = 0)) :
    parseTimeComps (timeChars h m s) = some (h * 3600 + m * 60 + s) := by
  have hH : isDig 'H' = false := rfl
  have hM : isDig 'M' = false := rfl
  have hS : isDig 'S' = false := rfl
  by_cases hh : h = 0 <;> by_cases hm : m = 0 <;> by_cases hs : s = 0
  · exact absurd ⟨hh, hm, hs⟩ hne
  · subst hh; subst hm
    simp [timeChars, parseTimeComps, hs, List.append_assoc,
      tryComp_skip 'H' 'S' (by decide) s hs hS,
      tryComp_skip 'M' 'S' (by decide) s hs hS, tryComp_match 'S' s hs hS []]
  · subst hh; subst hs
    simp [timeChars, parseTimeComps, hm, List.append_assoc,
      tryComp_skip 'H' 'M' (by decide) m hm hM,
      tryComp_match 'M' m hm hM [], tryComp_nil]
  · subst hh
    simp [timeChars, parseTimeComps, hm, hs, List.append_assoc,
      tryComp_skip 'H' 'M' (by decide) m hm hM,
      tryComp_match 'M' m hm hM, tryComp_match 'S' s hs hS []]
  · subst hm; subst hs
    simp [timeChars, parseTimeComps, hh, List.append_assoc,
      tryComp_match 'H' h hh hH [], tryComp_nil]
  · subst hm
    simp [timeChars, parseTimeComps, hh, hs, List.append_assoc,
      tryComp_match 'H' h hh hH,
      tryComp_skip 'M' 'S' (by decide) s hs hS, tryComp_match 'S' s hs hS []]
  · subst hs
    simp [timeChars, parseTimeComps, hh, hm, List.append_assoc,
      tryComp_match 'H' h hh hH, tryComp_match 'M' m hm hM [], tryComp_nil]
  · simp [timeChars, parseTimeComps, hh, hm, hs, List.append_assoc,
      tryComp_match 'H' h hh hH, tryComp_match 'M' m hm hM,
      tryComp_match 'S' s hs hS []]

theorem timeChars_ne_nil (h m s : Nat) (hne : ¬(h = 0 ∧ m = 0 ∧ s = 0)) :
    timeChars h m s ≠ [] := by
  by_cases hh : h = 0 <;> by_cases hm : m = 0 <;> by_cases hs : s = 0
  · exact absurd ⟨hh, hm, hs⟩ hne
  all_goals simp [timeChars, hh, hm, hs]

theorem parseAfterP_secsChars (ts : Nat) : parseAfterP (secsChars ts) = some ts := by
  have hD : isDig 'D' = false := rfl
  have hT : isDig 'T' = false := rfl
  by_cases htp : ts % 86400 / 3600 = 0 ∧ ts % 86400 % 3600 / 60 = 0 ∧
      ts % 86400 % 3600 % 60 = 0
  · obtain ⟨h1, h2, h3⟩ := htp
    have htc : timeChars (ts % 86400 / 3600) (ts % 86400 % 3600 / 60)
        (ts % 86400 % 3600 % 60) = [] := by
      rw [h1, h2, h3]; rfl
    by_cases hd : ts / 86400 = 0
    · have hts : ts = 0 := by omega
      subst hts
      rfl
    · simp [secsChars, htc, hd, parseAfterP, tryComp_match 'D' (ts / 86400) hd hD []]
      omega
  · have hne := timeChars_ne_nil _ _ _ htp
    by_cases hd : ts / 86400 = 0
    · simp [secsChars, hne, hd, parseAfterP, tryComp_nondigit 'D' 'T' _ hT,
        parseTimeComps_built _ _ _ htp]
      omega
    · simp [secsChars, hne, hd, parseAfterP, List.append_assoc,
        tryComp_match 'D' (ts / 86400) hd hD, parseTimeComps_built _ _ _ htp]
      omega

theorem msToXSDuration_of_neg (ms : Int) (h0 : ms ≠ 0) (hn : ms < 0) :
    msToXSDuration ms = ⟨'-' :: 'P' :: secsChars (ms.natAbs / 1000)⟩ := by
  simp [msToXSDuration, h0, hn]

theorem msToXSDuration_of_pos (ms : Int) (h0 : ms ≠ 0) (hn : ¬ms < 0) :
    msToXSDuration ms = ⟨'P' :: secsChars (ms.natAbs / 1000)⟩ := by
  simp [msToXSDuration, h0, hn]

theorem decode_encode (ms : Int) :
    xsDurationToMs (msToXSDuration ms) =
      some ((if ms < 0 then -1 else 1) * ((ms.natAbs / 1000 : Nat) : Int) * 1000) := by
  by_cases h0 : ms = 0
  · subst h0; decide
  · by_cases hn : ms < 0
    · rw [msToXSDuration_of_neg ms h0 hn, if_pos hn]
      simp [xsDurationToMs, stripMinus, parseAfterP_secsChars]
    · rw [msToXSDuration_of_pos ms h0 hn, if_neg hn]
      simp [xsDurationToMs, stripMinus, parseAfterP_secsChars]

theorem msToXSDuration_neg_mul (n : Nat) (hn : n ≠ 0) :
    msToXSDuration (-((n : Int) * 1000)) = ⟨'-' :: 'P' :: secsChars n⟩ := by
  have h1 : -((n : Int) * 1000) ≠ 0 := by
    have : 0 < n := Nat.pos_of_ne_zero hn
    omega
  have h2 : -((n : Int) * 1000) < 0 := by
    have : 0 < n := Nat.pos_of_ne_zero hn
    omega
  have h3 : (-((n : Int) * 1000)).natAbs = n * 1000 := by
    simp [Int.natAbs_neg, Int.natAbs_mul]
  rw [msToXSDuration_of_neg _ h1 h2, h3,
    Nat.mul_div_cancel _ (by norm_num : (0 : Nat) < 1000)]

theorem msToXSDuration_pos_mul (n : Nat) (hn : n ≠ 0) :
    msToXSDuration ((n : Int) * 1000) = ⟨'P' :: secsChars n⟩ := by
  have h1 : ((n : Int) * 1000) ≠ 0 := by
    have : 0 < n := Nat.pos_of_ne_zero hn
    omega
  have h2 : ¬((n : Int) * 1000) < 0 := by omega
  have h3 : (((n : Int) * 1000)).natAbs = n * 1000 := by
    simp [Int.natAbs_mul]
  rw [msToXSDuration_of_pos _ h1 h2, h3,
    Nat.mul_div_cancel _ (by norm_num : (0 : Nat) < 1000)]

theorem encode_fixed (ms : Int) (h : ¬(ms < 0 ∧ ms.natAbs < 1000)) :
    msToXSDuration ((if ms < 0 then -1 else 1) * ((ms.natAbs / 1000 : Nat) : Int) * 1000) =
      msToXSDuration ms := by
  by_cases h0 : ms = 0
  · subst h0; rfl
  · by_cases hn : ms < 0
    · have hge : 1000 ≤ ms.natAbs := by
        rcases Nat.lt_or_ge ms.natAbs 1000 with hlt | hge
        · exact absurd ⟨hn, hlt⟩ h
        · exact hge
      have hts : ms.natAbs / 1000 ≠ 0 := by omega
      have harg : (if ms < 0 then (-1 : Int) else 1) * ((ms.natAbs / 1000 : Nat) : Int) * 1000
          = -(((ms.natAbs / 1000 : Nat) : Int) * 1000) := by
        rw [if_pos hn]; ring
      rw [harg, msToXSDuration_neg_mul _ hts, msToXSDuration_of_neg ms h0 hn]
    · by_cases hts : ms.natAbs / 1000 = 0
      · have harg : (if ms < 0 then (-1 : Int) else 1) * ((ms.natAbs / 1000 : Nat) : Int) * 1000
            = 0 := by
          rw [if_neg hn, hts]; ring
        rw [harg, msToXSDuration_of_pos ms h0 hn, hts]
        decide
      · have harg : (if ms < 0 then (-1 : Int) else 1) * ((ms.natAbs / 1000 : Nat) : Int) * 1000
            = ((ms.natAbs / 1000 : Nat) : Int) * 1000 := by
          rw [if_neg hn]; ring
        rw [harg, msToXSDuration_pos_mul _ hts, msToXSDuration_of_pos ms h0 hn]

/-! ## Scheduling window normalization (handleStageTrigger, src/routes/pilot.js)

The route reads patchWindow and endOffset from the request body. The
window may arrive as a structured object with days, hours and minutes
fields, as a legacy bare number of hours, or as a string; absent fields
are undefined. WindowInput is that value space.
-/

/-- A request-body value in the positions the window logic inspects. -/
inductive WindowInput
  | wObj (days hours minutes : Option Int)
  | wNum (n : Int)
  | wStr (s : String)
  | wUndef
deriving DecidableEq

/-- JS truthiness of a WindowInput: objects are always truthy, a number
is truthy unless zero, a string is truthy unless empty, an absent field
is falsy. -/
def jsTruthy : WindowInput → Bool
  | .wObj _ _ _ => true
  | .wNum n => n != 0
  | .wStr s => s != ""
  | .wUndef => false

/-- getPatchWindowMs from src/routes/pilot.js. A structured object
normalizes days, hours and minutes to milliseconds, with absent or
non-numeric fields counting as zero; any other value is coerced to a
number and taken as whole hours, accepted only when finite and strictly
positive; everything else normalizes to zero milliseconds. -/
def getPatchWindowMs : WindowInput → Int
  | .wObj d h m => d.getD 0 * 86400000 + h.getD 0 * 3600000 + m.getD 0 * 60000
  | .wNum n => if 0 < n then n * 3600000 else 0
  | .wStr s =>
      match s.toInt? with
      | some k => if 0 < k then k * 3600000 else 0
      | none => 0
  | .wUndef => 0

/-- localUtcOffsetMs from src/routes/pilot.js: the machine UTC offset in
milliseconds, computed from the getTimezoneOffset value in minutes. -/
def localUtcOffsetMs (offsetMin : Int) : Int := -offsetMin * 60000

/-- Outcome of the window-validation stage of handleStageTrigger: either
the 400 validation error, returned before triggerBaselineAction is ever
invoked (so no external submission happens), or the offset value handed
to the submission path. -/
inductive WindowDecision
  | valErr
  | proceed (offset : WindowInput)
deriving DecidableEq

/-- The window-validation stage of handleStageTrigger: timeInput is
patchWindow when truthy, else endOffset; a positive normalized window is
encoded after the UTC-offset correction and passed on; otherwise the raw
endOffset is passed on when truthy, and only failing that is the
validation error returned. -/
def decideWindow (patchWindow endOffset : WindowInput) (tzMs : Int) : WindowDecision :=
  let timeInput := if jsTruthy patchWindow then patchWindow else endOffset
  let pwMs := getPatchWindowMs timeInput
  if 0 < pwMs then .proceed (.wStr (msToXSDuration (pwMs - tzMs)))
  else if jsTruthy endOffset then .proceed endOffset
  else .valErr

/-- The completion-offset computation inlined in handleStageTrigger:
deltaMs = pwMs - localUtcOffsetMs, then duration encoding. -/
def computeCompletionOffset (pwMs : Int) (offsetMin : Int) : String :=
  msToXSDuration (pwMs - localUtcOffsetMs offsetMin)

/-- The window was supplied in one of the two numeric request forms, the
structured object or the legacy bare number, and is zero or negative. -/
def nonPositiveWindowForm (pw : WindowInput) : Prop :=
  (∃ d h m, pw = .wObj d h m ∧
     d.getD 0 * 86400000 + h.getD 0 * 3600000 + m.getD 0 * 60000 ≤ 0) ∨
  (∃ n, pw = .wNum n ∧ n ≤ 0)

/-- C3 counterexample: a trigger request whose structured scheduling
window is all-zero but which also carries a truthy endOffset string is
not rejected: the handler proceeds, handing the raw endOffset to the
submission path instead of returning the validation error. -/
theorem c3_zero_window_with_endOffset_proceeds :
    decideWindow (.wObj (some 0) (some 0) (some 0)) (.wStr "P2D") 0 =
      .proceed (.wStr "P2D") ∧
    decideWindow (.wObj (some 0) (some 0) (some 0)) (.wStr "P2D") 0 ≠
      WindowDecision.valErr := by
  constructor
  · rfl
  · decide

/-- C3 (amended): a zero-or-negative scheduling window, supplied either
as a structured object or as a legacy bare number, yields the validation
error before any external submission, provided the request does not also
carry a truthy endOffset fallback value. -/
theorem c3_nonpositive_window_is_rejected (pw eo : WindowInput) (tz : Int)
    (hpw : nonPositiveWindowForm pw) (heo : jsTruthy eo = false) :
    decideWindow pw eo tz = WindowDecision.valErr := by
  have heo0 : ¬0 < getPatchWindowMs eo := by
    cases eo with
    | wObj d h m => simp [jsTruthy] at heo
    | wNum n =>
        have hn : n = 0 := by simpa [jsTruthy] using heo
        subst hn
        simp [getPatchWindowMs]
    | wStr s =>
        have hs : s = "" := by simpa [jsTruthy] using heo
        subst hs
        simp [getPatchWindowMs, show ("" : String).toInt? = none from rfl]
    | wUndef => simp [getPatchWindowMs]
  rcases hpw with ⟨d, h, m, rfl, hle⟩ | ⟨n, rfl, hle⟩
  · have hnp : ¬0 < getPatchWindowMs (WindowInput.wObj d h m) := by
      simp only [getPatchWindowMs]
      omega
    have ht : jsTruthy (WindowInput.wObj d h m) = true := rfl
    simp [decideWindow, ht, hnp, heo]
  · by_cases hn0 : n = 0
    · subst hn0
      have ht : jsTruthy (WindowInput.wNum 0) = false := rfl
      simp [decideWindow, ht, heo0, heo]
    · have hnp : ¬0 < getPatchWindowMs (WindowInput.wNum n) := by
        simp only [getPatchWindowMs]
        omega
      have ht : jsTruthy (WindowInput.wNum n) = true := by
        simp [jsTruthy, hn0]
      simp [decideWindow, ht, hnp, heo]

/-- Witness for the amended C3 at a concrete negative structured window
with no endOffset supplied. -/
theorem c3_nonpositive_window_is_rejected_witness :
    decideWindow (.wObj (some 0) (some (-2)) (some 0)) .wUndef 330 =
      WindowDecision.valErr :=
  c3_nonpositive_window_is_rejected _ _ _
    (Or.inl ⟨some 0, some (-2), some 0, rfl, by decide⟩) (by decide)

/-- C4: whenever the effective window is positive, the handler proceeds
with exactly the encoding of the window milliseconds minus the machine
UTC offset in milliseconds; the produced string is in the duration
grammar (the spec-modelled parser accepts it), and a zero total encodes
as exactly PT0S. -/
theorem c4_completion_offset (pw eo : WindowInput) (offsetMin : Int)
    (hpos : 0 < getPatchWindowMs (if jsTruthy pw then pw else eo)) :
    decideWindow pw eo (localUtcOffsetMs offsetMin) =
      .proceed (.wStr (computeCompletionOffset
        (getPatchWindowMs (if jsTruthy pw then pw else eo)) offsetMin)) ∧
    (xsDurationToMs (computeCompletionOffset
        (getPatchWindowMs (if jsTruthy pw then pw else eo)) offsetMin)).isSome = true ∧
    msToXSDuration 0 = "PT0S" := by
  refine ⟨?_, ?_, rfl⟩
  · simp only [decideWindow]
    rw [if_pos hpos]
    rfl
  · rw [computeCompletionOffset, decode_encode]
    rfl

/-- Witness for C4 at a two-hour structured window on a machine at UTC
offset +330 minutes. -/
theorem c4_completion_offset_witness :
    decideWindow (.wObj (some 0) (some 2) (some 0)) .wUndef
        (localUtcOffsetMs (-330)) =
      .proceed (.wStr (computeCompletionOffset 7200000 (-330))) :=
  (c4_completion_offset (.wObj (some 0) (some 2) (some 0)) .wUndef (-330)
    (by decide)).1

/-- C5: for every structured window with a positive total, the produced
completion-offset string is a fixed point of re-encoding: the
spec-modelled decoder returns a millisecond value whose encoding is the
identical string. The machine UTC offset is whole minutes, as delivered
by getTimezoneOffset. -/
theorem c5_reencoding_fixed_point (d h m : Option Int) (offsetMin : Int)
    (_hpos : 0 < getPatchWindowMs (.wObj d h m)) :
    ∃ v, xsDurationToMs (computeCompletionOffset
           (getPatchWindowMs (.wObj d h m)) offsetMin) = some v ∧
         msToXSDuration v = computeCompletionOffset
           (getPatchWindowMs (.wObj d h m)) offsetMin := by
  refine ⟨_, decode_encode (getPatchWindowMs (.wObj d h m) - localUtcOffsetMs offsetMin), ?_⟩
  apply encode_fixed
  rintro ⟨hneg, habs⟩
  have h60 : (getPatchWindowMs (.wObj d h m) - localUtcOffsetMs offsetMin) % 60000 = 0 := by
    simp only [getPatchWindowMs, localUtcOffsetMs]
    omega
  omega

/-- Witness for C5 at a ninety-minute structured window on a machine at
UTC offset -330 minutes. -/
theorem c5_reencoding_fixed_point_witness :
    0 < getPatchWindowMs (.wObj (some 0) (some 1) (some 30)) ∧
    ∃ v, xsDurationToMs (computeCompletionOffset
           (getPatchWindowMs (.wObj (some 0) (some 1) (some 30))) 330) = some v ∧
         msToXSDuration v = computeCompletionOffset
           (getPatchWindowMs (.wObj (some 0) (some 1) (some 30))) 330 :=
  ⟨by decide, c5_reencoding_fixed_point (some 0) (some 1) (some 30) 330 (by decide)⟩

/-! ## Targeting-expression templates (triggerBaselineAction, src/routes/pilot.js) -/

/-- toLowerSafe from src/utils/http.js: the characterwise lowercase of
the string (the falsy guard of the source only matters for absent values,
which never reach this call). -/
def toLowerSafe (x : String) : String := ⟨x.data.map Char.toLower⟩

/-- Does the first list appear at the head of the second. -/
def leadsWith : List Char → List Char → Bool
  | [], _ => true
  | _ :: _, [] => false
  | a :: as, b :: bs => a == b && leadsWith as bs

/-- Does the first list occur as a contiguous sublist of the second. -/
def hasSub (needle : List Char) : List Char → Bool
  | [] => leadsWith needle []
  | c :: cs => leadsWith needle (c :: cs) || hasSub needle cs

/-- The JS String.includes substring test. -/
def strIncludes (s sub : String) : Bool := hasSub sub.data s.data

/-- The custom-relevance synthesis of triggerBaselineAction: the three
templates dispatched on a case-insensitive substring test of the group
kind label, with the automatic-group site token special-casing the
ActionSite site. -/
def buildCustomRelevance (gName gId gSite gType : String) : String :=
  let type := toLowerSafe gType
  let siteTok :=
    if gSite = "ActionSite" then "site \"actionsite\""
    else "site \"CustomSite_" ++ gSite ++ "\""
  if strIncludes type "automatic" then
    "exists true whose ( if true then ( member of group " ++ gId ++ " of " ++
      siteTok ++ " ) else false)"
  else if strIncludes type "manual" then
    "exists true whose ( if true then ( member of manual group \"" ++ gName ++
      "\" of client ) else false)"
  else
    "exists true whose ( if true then ( member of server based group \"" ++ gName ++
      "\" of client ) else false)"

/-- C6: the target expression is a pure function of the group tuple. The
automatic template fires on a case-insensitive substring match of the
kind label, with the reserved actionsite token exactly when the site is
ActionSite and the verbatim CustomSite token otherwise; the manual
template fires when only manual matches; and the server-based template is
the fallback when neither label matches. -/
theorem c6_target_expression (gName gId gSite gType : String) :
    (strIncludes (toLowerSafe gType) "automatic" = true →
       (gSite = "ActionSite" →
          buildCustomRelevance gName gId gSite gType =
            "exists true whose ( if true then ( member of group " ++ gId ++
              " of " ++ "site \"actionsite\"" ++ " ) else false)") ∧
       (gSite ≠ "ActionSite" →
          buildCustomRelevance gName gId gSite gType =
            "exists true whose ( if true then ( member of group " ++ gId ++
              " of " ++ ("site \"CustomSite_" ++ gSite ++ "\"") ++ " ) else false)")) ∧
    (strIncludes (toLowerSafe gType) "automatic" = false →
       strIncludes (toLowerSafe gType) "manual" = true →
       buildCustomRelevance gName gId gSite gType =
         "exists true whose ( if true then ( member of manual group \"" ++ gName ++
           "\" of client ) else false)") ∧
    (strIncludes (toLowerSafe gType) "automatic" = false →
       strIncludes (toLowerSafe gType) "manual" = false →
       buildCustomRelevance gName gId gSite gType =
         "exists true whose ( if true then ( member of server based group \"" ++ gName ++
           "\" of client ) else false)") := by
  refine ⟨fun ha => ⟨fun hs => ?_, fun hs => ?_⟩, fun ha hm => ?_, fun ha hm => ?_⟩
  · simp [buildCustomRelevance, ha, hs]
  · simp [buildCustomRelevance, ha, hs]
  · simp [buildCustomRelevance, ha, hm]
  · simp [buildCustomRelevance, ha, hm]

/-- Witness for C6: an Automatic group homed on ActionSite uses the
reserved site token. -/
theorem c6_target_expression_witness :
    buildCustomRelevance "SRV-GRP" "42" "ActionSite" "Automatic" =
      "exists true whose ( if true then ( member of group " ++ "42" ++
        " of " ++ "site \"actionsite\"" ++ " ) else false)" :=
  ((c6_target_expression "SRV-GRP" "42" "ActionSite" "Automatic").1 (by decide)).1 rfl

/-! ## Self-healing group lookup (triggerBaselineAction, src/routes/pilot.js)

When the upstream group query returns an empty result set, the route
checks the local AssetOwnership table: a locally-known name is a ghost
group, whose ownership row is deleted before the ghost-specific error is
thrown; an unknown name gets the ordinary not-found error with the table
untouched.
-/

/-- A row of the dbo.AssetOwnership table, in the columns the lookup
touches. -/
structure OwnershipRow where
  assetName : String
  assetType : String
deriving DecidableEq

/-- The errors the group-resolution step can throw. -/
inductive GroupLookupError
  | ghostDeleted (name : String)
  | notFound (name : String)
  | badShape
deriving DecidableEq

/-- The WHERE clause of both the SELECT and the DELETE: AssetName matches
the group name and AssetType is Group. -/
def ownsGroup (r : OwnershipRow) (name : String) : Bool :=
  r.assetName == name && r.assetType == "Group"

/-- The self-healing branch taken when the upstream result set is empty:
a locally-known group is deleted from AssetOwnership and reported as a
ghost; otherwise the table is untouched and the ordinary not-found error
is reported. -/
def selfHealGroupLookup (db : List OwnershipRow) (name : String) :
    GroupLookupError × List OwnershipRow :=
  if db.any (fun r => ownsGroup r name) then
    (.ghostDeleted name, db.filter (fun r => !(ownsGroup r name)))
  else (.notFound name, db)

/-- Result of the group-resolution step of triggerBaselineAction. -/
inductive GroupResolution
  | ok (gName gId gSite gType : String)
  | err (e : GroupLookupError)
deriving DecidableEq

/-- The group-resolution step: an empty upstream result set goes through
self-healing; a nonempty one must flatten to at least four fields (name,
id, site, kind), else the shape error is thrown. -/
def resolveGroupStep (upstream : List (List String)) (db : List OwnershipRow)
    (name : String) : GroupResolution × List OwnershipRow :=
  match upstream with
  | [] =>
      let p := selfHealGroupLookup db name
      (.err p.1, p.2)
  | row :: _ =>
      match row with
      | gName :: gId :: gSite :: gType :: _ => (.ok gName gId gSite gType, db)
      | _ => (.err .badShape, db)

/-- C7: on an empty upstream result set, a name present in AssetOwnership
has its ownership rows deleted and yields the ghost-specific error, never
the generic not-found; a name absent from AssetOwnership yields the
generic not-found error and the table is unchanged. -/
theorem c7_self_healing (db : List OwnershipRow) (name : String) :
    (db.any (fun r => ownsGroup r name) = true →
       resolveGroupStep [] db name =
         (.err (.ghostDeleted name), db.filter (fun r => !(ownsGroup r name))) ∧
       (∀ r ∈ (resolveGroupStep [] db name).2, ownsGroup r name = false) ∧
       ∀ n2, GroupLookupError.ghostDeleted name ≠ GroupLookupError.notFound n2) ∧
    (db.any (fun r => ownsGroup r name) = false →
       resolveGroupStep [] db name = (.err (.notFound name), db)) := by
  constructor
  · intro hin
    refine ⟨?_, ?_, ?_⟩
    · simp [resolveGroupStep, selfHealGroupLookup, hin]
    · intro r hr
      simp only [resolveGroupStep, selfHealGroupLookup, hin, if_true] at hr
      simpa using (List.mem_filter.1 hr).2
    · intro n2 hcontra
      exact GroupLookupError.noConfusion hcontra
  · intro hout
    simp [resolveGroupStep, selfHealGroupLookup, hout]

/-- Witness for C7: a one-row table owning the looked-up name is emptied
and the ghost error is produced. -/
theorem c7_self_healing_witness :
    resolveGroupStep [] [⟨"SRV-GRP", "Group"⟩] "SRV-GRP" =
      (.err (.ghostDeleted "SRV-GRP"), []) :=
  ((c7_self_healing [⟨"SRV-GRP", "Group"⟩] "SRV-GRP").1 (by decide)).1

/-! ## Post-patch watcher (src/services/postpatchWatcher.js)

The watcher tick iterates the in-memory action map; for each entry it
checks the single-send guard shouldSend, polls the status endpoint,
skips unless the overall status is the terminal expired marker, fetches
result rows, attempts the notification inside a try block whose failure
is swallowed, and then always calls markSent, which sets the in-memory
flag and best-effort updates the durable row. The model below is the
per-record view of one tick, with the externally-observable side effects
recorded as an event trace in order of occurrence.
-/

/-- Index of the first occurrence of the needle in the haystack. -/
def findIdx (needle : List Char) : List Char → Option Nat
  | [] => if leadsWith needle [] then some 0 else none
  | c :: cs =>
      if leadsWith needle (c :: cs) then some 0
      else (findIdx needle cs).map (· + 1)

/-- Characterwise lowercase. -/
def lowerChars (l : List Char) : List Char := l.map Char.toLower

/-- JS whitespace for the trim of pickTag. -/
def isWSChar (c : Char) : Bool := c = ' ' || c = '\t' || c = '\n' || c = '\r'

/-- Drop leading whitespace. -/
def dropWS : List Char → List Char
  | [] => []
  | c :: cs => if isWSChar c then dropWS cs else c :: cs

/-- The JS String.trim: drop whitespace at both ends. -/
def trimChars (l : List Char) : List Char := (dropWS (dropWS l).reverse).reverse

/-- pickTag from src/services/postpatchWatcher.js: case-insensitive first
match of an opening tag followed by the earliest closing tag, capturing
the trimmed content between them. -/
def pickTag (text tag : String) : Option String :=
  let hay := lowerChars text.data
  let openTag := '<' :: (lowerChars tag.data ++ ['>'])
  let closeTag := '<' :: '/' :: (lowerChars tag.data ++ ['>'])
  match findIdx openTag hay with
  | none => none
  | some i =>
      match findIdx closeTag (hay.drop (i + openTag.length)) with
      | none => none
      | some j => some ⟨trimChars ((text.data.drop (i + openTag.length)).take j)⟩

/-- pickStatusTop: the top-level Status element of the status document. -/
def pickStatusTop (xml : String) : Option String := pickTag xml "Status"

/-- The CONFIG switch the watcher consults. -/
structure WatchConfig where
  postPatchMail : Bool
deriving DecidableEq

/-- The metadata record kept per action, as written by
triggerBaselineAction and read by the watcher. Fields that the reading
code guards with falsy checks are Options. -/
structure ActionRecord where
  createdAt : String
  stage : Option String
  xml : String
  baselineName : Option String
  baselineSite : Option String
  baselineFixletId : Option String
  groupName : Option String
  groupId : Option String
  groupSite : Option String
  groupType : Option String
  endOffset : String
  preMail : Option Bool
  smtpEnabled : Option Bool
  postMailSent : Bool
  triggeredBy : String
deriving DecidableEq

/-- shouldSend from src/services/postpatchWatcher.js: the single-send
guard. In order: the global postPatchMail switch, a missing entry, an
already-sent entry, an entry created with preMail explicitly false, and
an entry created with smtpEnabled explicitly false all veto the send. -/
def shouldSend (cfg : WatchConfig) (entry : Option ActionRecord) : Bool :=
  if !cfg.postPatchMail then false
  else
    match entry with
    | none => false
    | some e =>
        if e.postMailSent then false
        else
          match e.preMail with
          | some false => false
          | _ =>
              match e.smtpEnabled with
              | some false => false
              | _ => true

/-- Externally visible side effects of one tick on one record, in order
of occurrence. -/
inductive WEvent
  | pollStatus
  | fetchResults
  | mailAttempt (ok : Bool)
  | memFinalize
  | dbFinalize (ok : Bool)
deriving DecidableEq

/-- The environment one tick observes for one record: the status
response (none models a non-2xx transport outcome), whether the mail
send succeeds, and whether the durable update succeeds. -/
structure TickEnv where
  statusResp : Option String
  mailOk : Bool
  dbOk : Bool
deriving DecidableEq

/-- One watcher tick on one record. The guard failing skips the record
entirely; a failed or empty status response leaves it untouched; a
non-expired overall status leaves it untouched; on expired, results are
fetched, the mail attempt happens (its outcome irrelevant to control
flow), and markSent sets the in-memory flag and attempts the durable
update. -/
def tickEntry (cfg : WatchConfig) (env : TickEnv) (entry : Option ActionRecord) :
    Option ActionRecord × List WEvent :=
  if shouldSend cfg entry = false then (entry, [])
  else
    match env.statusResp with
    | none => (entry, [.pollStatus])
    | some text =>
        if text = "" then (entry, [.pollStatus])
        else
          if toLowerSafe ((pickStatusTop text).getD "") = "expired" then
            (entry.map (fun e => { e with postMailSent := true }),
             [.pollStatus, .fetchResults, .mailAttempt env.mailOk, .memFinalize,
              .dbFinalize env.dbOk])
          else (entry, [.pollStatus])

/-- A sequence of watcher ticks on one record, concatenating the traces. -/
def runTicks (cfg : WatchConfig) (envs : List TickEnv) (entry : Option ActionRecord) :
    Option ActionRecord × List WEvent :=
  match envs with
  | [] => (entry, [])
  | env :: rest =>
      let p := tickEntry cfg env entry
      let q := runTicks cfg rest p.1
      (q.1, p.2 ++ q.2)

/-! ## Durable action store (dbo.ActionHistory)

A row keeps the action id, the serialized metadata (JSON modelled as the
identity round trip), the PostMailSent bit and the CreatedAt timestamp
in epoch milliseconds UTC. The in-memory side is the map from action id
to record.
-/

/-- A row of dbo.ActionHistory. -/
structure DbRow where
  actionId : Nat
  metadata : ActionRecord
  postMailSent : Bool
  createdAt : Int
deriving DecidableEq

/-- The in-memory action map of src/state/store.js. -/
def ActionMap := Nat → Option ActionRecord

/-- The map after a process start (or a simulated crash). -/
def emptyActions : ActionMap := fun _ => none

/-- Point update of the in-memory map. -/
def mapInsert (m : ActionMap) (k : Nat) (v : ActionRecord) : ActionMap :=
  fun k2 => if k2 = k then some v else m k2

/-- The SELECT of loadCacheFromDb: rows WHERE PostMailSent = 0. -/
def selectPending (db : List DbRow) : List DbRow :=
  db.filter (fun r => !r.postMailSent)

/-- The loop body of loadCacheFromDb: spread the parsed metadata and
overlay the PostMailSent column value. -/
def insertPendingRow (m : ActionMap) (row : DbRow) : ActionMap :=
  mapInsert m row.actionId { row.metadata with postMailSent := row.postMailSent }

/-- loadCacheFromDb from src/services/postpatchWatcher.js: load every
durable row whose PostMailSent bit is clear into the in-memory map. -/
def loadCacheFromDb (db : List DbRow) (mem : ActionMap) : ActionMap :=
  (selectPending db).foldl insertPendingRow mem

/-- The CONFIG field cleanupOldActions reads; the base CONFIG object of
src/state/store.js never defines it. -/
structure RetentionConfig where
  postpatchRetentionDays : Option Int
deriving DecidableEq

/-- The effective retention window: Number of the configured value with
30 as the fallback for a falsy (absent or zero) configuration. -/
def effectiveRetentionDays (cfg : RetentionConfig) : Int :=
  match cfg.postpatchRetentionDays with
  | none => 30
  | some v => if v = 0 then 30 else v

/-- cleanupOldActions from src/services/postpatchWatcher.js: a
non-positive window is a no-op; otherwise DELETE the rows whose
PostMailSent bit is set and whose CreatedAt is older than the window. -/
def cleanupOldActions (cfg : RetentionConfig) (now : Int) (db : List DbRow) :
    List DbRow :=
  if effectiveRetentionDays cfg ≤ 0 then db
  else
    db.filter (fun r =>
      !(r.postMailSent && decide (r.createdAt < now - effectiveRetentionDays cfg * 86400000)))

/-! ## Store lemmas -/

theorem cleanup_keeps_unsent (cfg : RetentionConfig) (now : Int) (db : List DbRow)
    (row : DbRow) (hmem : row ∈ db) (hflag : row.postMailSent = false) :
    row ∈ cleanupOldActions cfg now db := by
  unfold cleanupOldActions
  split
  · exact hmem
  · exact List.mem_filter.2 ⟨hmem, by simp [hflag]⟩

theorem foldl_ins_not_mem (rows : List DbRow) (m : ActionMap) (k : Nat)
    (h : ∀ r ∈ rows, r.actionId ≠ k) :
    (rows.foldl insertPendingRow m) k = m k := by
  induction rows generalizing m with
  | nil => rfl
  | cons a t ih =>
      rw [List.foldl_cons, ih _ (fun r hr => h r (List.mem_cons_of_mem a hr))]
      have hk : k ≠ a.actionId := Ne.symm (h a (List.mem_cons_self a t))
      simp [insertPendingRow, mapInsert, hk]

theorem foldl_ins_found (rows : List DbRow) (m : ActionMap) (r : DbRow)
    (hmem : r ∈ rows) (hnd : (rows.map (fun x => x.actionId)).Nodup) :
    (rows.foldl insertPendingRow m) r.actionId =
      some { r.metadata with postMailSent := r.postMailSent } := by
  induction rows generalizing m with
  | nil => cases hmem
  | cons a t ih =>
      rw [List.foldl_cons]
      rcases List.mem_cons.1 hmem with rfl | hmem2
      · have hnot : ∀ x ∈ t, x.actionId ≠ r.actionId := by
          intro x hx hEq
          have hin : r.actionId ∈ t.map (fun y => y.actionId) := by
            rw [← hEq]
            exact List.mem_map_of_mem (fun y => y.actionId) hx
          exact (List.nodup_cons.1 hnd).1 hin
        rw [foldl_ins_not_mem t _ _ hnot]
        simp [insertPendingRow, mapInsert]
      · exact ih _ hmem2 (List.nodup_cons.1 hnd).2

/-- A concrete record for evaluating the theorems below: the shape
triggerBaselineAction writes for a freshly submitted action. -/
def sampleRecord : ActionRecord :=
  { createdAt := "2025-01-01T00:00:00.000Z"
    stage := some "Pilot"
    xml := "<BES/>"
    baselineName := some "Patch_A"
    baselineSite := some "CustomSite_Patching"
    baselineFixletId := some "77"
    groupName := some "SRV-GRP"
    groupId := some "42"
    groupSite := some "ActionSite"
    groupType := some "Automatic"
    endOffset := "PT2H"
    preMail := some true
    smtpEnabled := some true
    postMailSent := false
    triggeredBy := "tester" }

/-! ## Watcher lemmas and claims -/

theorem shouldSend_of_sent (cfg : WatchConfig) (e : ActionRecord)
    (h : e.postMailSent = true) : shouldSend cfg (some e) = false := by
  simp [shouldSend, h]

theorem tick_of_sent (cfg : WatchConfig) (env : TickEnv) (e : ActionRecord)
    (h : e.postMailSent = true) : tickEntry cfg env (some e) = (some e, []) := by
  simp [tickEntry, shouldSend_of_sent cfg e h]

/-- C1: once the postMailSent flag of a record is true, any sequence of
watcher ticks leaves the record untouched and produces no side effects
at all, in particular no notification attempt; and any single tick
either leaves a record unchanged or sets its flag to true, so the flag
is never reset and transitions false to true at most once. -/
theorem c1_no_resend_after_sent (cfg : WatchConfig) (envs : List TickEnv)
    (env : TickEnv) (e : ActionRecord) :
    (e.postMailSent = true → runTicks cfg envs (some e) = (some e, [])) ∧
    ((tickEntry cfg env (some e)).1 = some e ∨
      (tickEntry cfg env (some e)).1 = some { e with postMailSent := true }) := by
  constructor
  · intro h
    induction envs with
    | nil => rfl
    | cons env2 rest ih =>
        simp [runTicks, tick_of_sent cfg env2 e h, ih]
  · by_cases hs : shouldSend cfg (some e) = false
    · left; simp [tickEntry, hs]
    · unfold tickEntry
      rw [if_neg hs]
      rcases hresp : env.statusResp with _ | text
      · left; rfl
      · by_cases ht : text = ""
        · left; simp [ht]
        · by_cases hov : toLowerSafe ((pickStatusTop text).getD "") = "expired"
          · right; simp [ht, hov]
          · left; simp [ht, hov]

/-- Witness for C1: a finalized record survives a tick whose status
response would otherwise finalize it, with an empty trace. -/
theorem c1_no_resend_after_sent_witness :
    runTicks ⟨true⟩ [⟨some "<Status>Expired</Status>", true, true⟩]
        (some { sampleRecord with postMailSent := true }) =
      (some { sampleRecord with postMailSent := true }, []) :=
  (c1_no_resend_after_sent ⟨true⟩ [⟨some "<Status>Expired</Status>", true, true⟩]
    ⟨some "<Status>Expired</Status>", true, true⟩
    { sampleRecord with postMailSent := true }).1 rfl

/-- C2: in a tick that passes the send guard and observes the terminal
expired status, the record is finalized regardless of whether the mail
send succeeded or threw, and the trace shows the in-memory finalization
strictly after the completed notification attempt, followed by the
best-effort durable update. -/
theorem c2_finalize_after_attempt (cfg : WatchConfig) (env : TickEnv)
    (e : ActionRecord) (text : String)
    (hsend : shouldSend cfg (some e) = true)
    (hresp : env.statusResp = some text) (hne : text ≠ "")
    (hexp : toLowerSafe ((pickStatusTop text).getD "") = "expired") :
    tickEntry cfg env (some e) =
      (some { e with postMailSent := true },
       [.pollStatus, .fetchResults, .mailAttempt env.mailOk, .memFinalize,
        .dbFinalize env.dbOk]) ∧
    (tickEntry cfg env (some e)).2.get? 2 = some (.mailAttempt env.mailOk) ∧
    (tickEntry cfg env (some e)).2.get? 3 = some .memFinalize := by
  have h1 : tickEntry cfg env (some e) =
      (some { e with postMailSent := true },
       [.pollStatus, .fetchResults, .mailAttempt env.mailOk, .memFinalize,
        .dbFinalize env.dbOk]) := by
    simp [tickEntry, hsend, hresp, hne, hexp]
  refine ⟨h1, ?_, ?_⟩ <;> (rw [h1]; rfl)

/-- Witness for C2 at a concrete expired status document and a failing
mail send. -/
theorem c2_finalize_after_attempt_witness :
    tickEntry ⟨true⟩ ⟨some "<Status>Expired</Status>", false, true⟩ (some sampleRecord) =
      (some { sampleRecord with postMailSent := true },
       [.pollStatus, .fetchResults, .mailAttempt false, .memFinalize,
        .dbFinalize true]) :=
  (c2_finalize_after_attempt ⟨true⟩ ⟨some "<Status>Expired</Status>", false, true⟩
    sampleRecord "<Status>Expired</Status>" (by decide) rfl (by decide) (by decide)).1

theorem shouldSend_skip (cfg : WatchConfig) (e : ActionRecord)
    (h : cfg.postPatchMail = false ∨ e.preMail = some false ∨
      e.smtpEnabled = some false) :
    shouldSend cfg (some e) = false := by
  rcases h with h | h | h
  · simp [shouldSend, h]
  · simp [shouldSend, h]
  · rcases hp : e.preMail with _ | b
    · simp [shouldSend, hp, h]
    · cases b
      · simp [shouldSend, hp]
      · simp [shouldSend, hp, h]

/-- C10: a record created with preMail false or smtpEnabled false, or
any record while the global postPatchMail switch is off, is skipped
entirely by every tick: no status poll, no notification, no flag change;
and retention cleanup never deletes a durable row whose PostMailSent bit
is clear, so such a record never becomes eligible for deletion. -/
theorem c10_disabled_records_skipped (cfg : WatchConfig) (env : TickEnv)
    (envs : List TickEnv) (e : ActionRecord)
    (hskip : cfg.postPatchMail = false ∨ e.preMail = some false ∨
      e.smtpEnabled = some false) :
    tickEntry cfg env (some e) = (some e, []) ∧
    runTicks cfg envs (some e) = (some e, []) ∧
    (∀ (rcfg : RetentionConfig) (now : Int) (db : List DbRow), ∀ row ∈ db,
       row.postMailSent = false → row ∈ cleanupOldActions rcfg now db) := by
  have hss := shouldSend_skip cfg e hskip
  have htick : ∀ env2 : TickEnv, tickEntry cfg env2 (some e) = (some e, []) := by
    intro env2
    simp [tickEntry, hss]
  refine ⟨htick env, ?_,
    fun rcfg now db row hm hf => cleanup_keeps_unsent rcfg now db row hm hf⟩
  induction envs with
  | nil => rfl
  | cons env2 rest ih => simp [runTicks, htick env2, ih]

/-- Witness for C10: a record created with smtpEnabled false is left
alone by a tick that would otherwise finalize it. -/
theorem c10_disabled_records_skipped_witness :
    tickEntry ⟨true⟩ ⟨some "<Status>Expired</Status>", true, true⟩
        (some { sampleRecord with smtpEnabled := some false }) =
      (some { sampleRecord with smtpEnabled := some false }, []) :=
  (c10_disabled_records_skipped ⟨true⟩ ⟨some "<Status>Expired</Status>", true, true⟩ []
    { sampleRecord with smtpEnabled := some false } (Or.inr (Or.inr rfl))).1

/-- C8: the recovery load over a durable table with distinct pending
action ids populates the crash-cleared in-memory map with exactly the
rows whose PostMailSent bit is clear, each reconstructed with field
values identical to the persisted metadata; ids not belonging to any
pending row stay absent. -/
theorem c8_recovery_load (db : List DbRow)
    (hnd : ((selectPending db).map (fun r => r.actionId)).Nodup) :
    (∀ row ∈ db, row.postMailSent = false → row.metadata.postMailSent = false →
       loadCacheFromDb db emptyActions row.actionId = some row.metadata) ∧
    (∀ id2 : Nat, (∀ row ∈ db, row.postMailSent = false → row.actionId ≠ id2) →
       loadCacheFromDb db emptyActions id2 = none) := by
  constructor
  · intro row hmem hflag hmeta
    have hmem2 : row ∈ selectPending db := by
      simp [selectPending, List.mem_filter, hmem, hflag]
    have hfind := foldl_ins_found (selectPending db) emptyActions row hmem2 hnd
    show (selectPending db).foldl insertPendingRow emptyActions row.actionId =
      some row.metadata
    rw [hfind, hflag, ← hmeta]
  · intro id2 hno
    show (selectPending db).foldl insertPendingRow emptyActions id2 = none
    rw [foldl_ins_not_mem]
    · rfl
    · intro r hr
      simp only [selectPending] at hr
      have h1 := (List.mem_filter.1 hr).1
      have h2 : r.postMailSent = false := by
        simpa using (List.mem_filter.1 hr).2
      exact hno r h1 h2

/-- Witness for C8: a two-row table with one pending and one finalized
row loads exactly the pending one. -/
theorem c8_recovery_load_witness :
    loadCacheFromDb
        [⟨7, sampleRecord, false, 0⟩,
         ⟨9, { sampleRecord with postMailSent := true }, true, 0⟩]
        emptyActions 7 = some sampleRecord :=
  (c8_recovery_load
    [⟨7, sampleRecord, false, 0⟩,
     ⟨9, { sampleRecord with postMailSent := true }, true, 0⟩]
    (by decide)).1 ⟨7, sampleRecord, false, 0⟩ (by decide) rfl rfl

/-- C9: a retention run deletes exactly the durable rows whose
PostMailSent bit is set and whose age exceeds the effective window; in
particular a row with the bit clear is never deleted, whatever its age,
and no row is ever added. -/
theorem c9_retention_cleanup (cfg : RetentionConfig) (now : Int) (db : List DbRow) :
    (∀ row ∈ db, row.postMailSent = false → row ∈ cleanupOldActions cfg now db) ∧
    (∀ row ∈ cleanupOldActions cfg now db, row ∈ db) ∧
    (∀ row ∈ db, row ∉ cleanupOldActions cfg now db →
       row.postMailSent = true ∧
       row.createdAt < now - effectiveRetentionDays cfg * 86400000) := by
  refine ⟨fun row hm hf => cleanup_keeps_unsent cfg now db row hm hf, ?_, ?_⟩
  · intro row hrow
    unfold cleanupOldActions at hrow
    split at hrow
    · exact hrow
    · exact (List.mem_filter.1 hrow).1
  · intro row hmem hnot
    unfold cleanupOldActions at hnot
    split at hnot
    · exact absurd hmem hnot
    · have hpred := fun hcond => hnot (List.mem_filter.2 ⟨hmem, hcond⟩)
      by_cases hp : row.postMailSent = true
      · by_cases hc : row.createdAt < now - effectiveRetentionDays cfg * 86400000
        · exact ⟨hp, hc⟩
        · exact absurd (by simp [hp, hc]) hpred
      · exact absurd (by simp [hp]) hpred

/-- Witness for C9: an arbitrarily old row with the bit clear survives a
cleanup with the default window. -/
theorem c9_retention_cleanup_witness :
    (⟨7, sampleRecord, false, -999999999999⟩ : DbRow) ∈
      cleanupOldActions ⟨none⟩ 0 [⟨7, sampleRecord, false, -999999999999⟩] :=
  (c9_retention_cleanup ⟨none⟩ 0 [⟨7, sampleRecord, false, -999999999999⟩]).1
    ⟨7, sampleRecord, false, -999999999999⟩ (by decide) rfl

end PatchOrch
